import Mathlib

/-!
Shallow embedding of the gesture-to-camera input controller
(`src/systems/CameraSystem.ts`, touch-enabled revision) of the
"the-still-guided" repository, together with the static camera
configuration from `src/core/Config.ts` (distance modes AT = 10,
NEAR = 50, FAR = 300; auto-rotate delay 12000 ms).

Modelling conventions:
* JavaScript numbers are modelled as exact rationals; decimal literals
  in the source (0.079, 0.25, 1e-4, ...) become the corresponding exact
  rationals.  `Math.PI` is modelled by the exact rational value of the
  IEEE-754 double `Math.PI`.
* The transcendental primitives used only to produce the cartesian
  camera pose and normalized pan frame (`Math.sin`, `Math.cos`,
  `Math.sqrt` inside `THREE.Vector2.distanceTo`, `Vector3.normalize`)
  are irrational over ℚ, so the whole model is parametric in a `Trig`
  bundle supplying them.  Every universally quantified theorem holds
  for all such bundles, in particular for the real ones; concrete
  evaluations instantiate the bundle with functions that agree with
  the real primitives at every input actually reached (perfect squares
  for `sqrt`; `sin`/`cos` values are never inspected by any statement).
* The `SaveManager` draft is modelled by the `saved` field (the
  mutation passed to `save.update`), and the event bus by an append
  only `events` log.
* `JS Map` iteration order is insertion order; the pointer map is
  modelled by an association list in insertion order where updating an
  existing key keeps its position, exactly as `Map.set` does.
* `setPointerCapture` / `releasePointerCapture` / `preventDefault` and
  the DOM (un)binding are effect-free for the modelled state and are
  omitted; `onWheel` / `onDoubleClick` (which only gate calls to
  `cycleDistance` behind a wall-clock cooldown) and `setTarget` are not
  needed by any statement below and are likewise omitted.
-/

/-- `type DistanceMode = "AT" | "NEAR" | "FAR"` from `src/core/Config.ts`. -/
inductive DistanceMode where
  | AT
  | NEAR
  | FAR
  deriving DecidableEq, Repr

/-- 2-component vector (`THREE.Vector2`) over exact rationals. -/
structure Vec2 where
  x : ℚ
  y : ℚ
  deriving DecidableEq, Repr

/-- 3-component vector (`THREE.Vector3`) over exact rationals. -/
structure Vec3 where
  x : ℚ
  y : ℚ
  z : ℚ
  deriving DecidableEq, Repr

/-- Spherical coordinates (`THREE.Spherical`): radius, polar angle `phi`,
azimuth `theta`. -/
structure Spherical where
  radius : ℚ
  phi : ℚ
  theta : ℚ
  deriving DecidableEq, Repr

def Vec2.add (a b : Vec2) : Vec2 := ⟨a.x + b.x, a.y + b.y⟩

def Vec2.sub (a b : Vec2) : Vec2 := ⟨a.x - b.x, a.y - b.y⟩

def Vec2.smul (s : ℚ) (a : Vec2) : Vec2 := ⟨s * a.x, s * a.y⟩

/-- `THREE.Vector2.lengthSq`. -/
def Vec2.lengthSq (a : Vec2) : ℚ := a.x * a.x + a.y * a.y

/-- `THREE.Vector2.distanceToSquared`. -/
def Vec2.distSq (a b : Vec2) : ℚ := (a.x - b.x) * (a.x - b.x) + (a.y - b.y) * (a.y - b.y)

def Vec3.add (a b : Vec3) : Vec3 := ⟨a.x + b.x, a.y + b.y, a.z + b.z⟩

def Vec3.sub (a b : Vec3) : Vec3 := ⟨a.x - b.x, a.y - b.y, a.z - b.z⟩

def Vec3.smul (s : ℚ) (a : Vec3) : Vec3 := ⟨s * a.x, s * a.y, s * a.z⟩

/-- `THREE.Vector3.cross`. -/
def Vec3.cross (a b : Vec3) : Vec3 :=
  ⟨a.y * b.z - a.z * b.y, a.z * b.x - a.x * b.z, a.x * b.y - a.y * b.x⟩

/-- `THREE.Vector3.lengthSq`. -/
def Vec3.lengthSq (a : Vec3) : ℚ := a.x * a.x + a.y * a.y + a.z * a.z

/-- Bundle of the transcendental numeric primitives the controller calls
(`Math.sin`, `Math.cos`, `Math.sqrt`).  The model is parametric in it. -/
structure Trig where
  sin : ℚ → ℚ
  cos : ℚ → ℚ
  sqrt : ℚ → ℚ

/-- `THREE.Vector2.distanceTo`: square root of the squared distance. -/
def Vec2.distanceTo (T : Trig) (a b : Vec2) : ℚ := T.sqrt (Vec2.distSq a b)

/-- `THREE.Vector3.normalize`: divide by the Euclidean length. -/
def Vec3.normalizeWith (T : Trig) (v : Vec3) : Vec3 :=
  Vec3.smul (1 / T.sqrt v.lengthSq) v

/-- `THREE.Vector3.setFromSpherical` (via `setFromSphericalCoords`). -/
def Vec3.setFromSpherical (T : Trig) (s : Spherical) : Vec3 :=
  let sinPhiRadius := T.sin s.phi * s.radius
  ⟨sinPhiRadius * T.sin s.theta, T.cos s.phi * s.radius, sinPhiRadius * T.cos s.theta⟩

/-- `THREE.MathUtils.clamp(value, min, max) = Math.max(min, Math.min(max, value))`. -/
def clampQ (value lo hi : ℚ) : ℚ := max lo (min hi value)

/-- `PointerEvent["pointerType"]` values the controller distinguishes. -/
inductive PointerType where
  | mouse
  | touch
  | pen
  deriving DecidableEq, Repr

/-- The `PointerRec` record tracked per pointer id. -/
structure PointerRec where
  id : ℕ
  pos : Vec2
  prev : Vec2
  ptype : PointerType
  deriving DecidableEq, Repr

/-- The fields of a DOM `PointerEvent` the handlers read. -/
structure PointerEv where
  pointerId : ℕ
  clientX : ℚ
  clientY : ℚ
  ptype : PointerType
  isPrimary : Bool
  button : ℕ
  deriving DecidableEq, Repr

/-- Events the controller emits on the `EventBus`
(`camera:distanceMode` and `camera:pan`). -/
inductive BusEvent where
  | modeChanged (m : DistanceMode)
  | panChanged (x y z : ℚ)
  deriving DecidableEq, Repr

/-- The camera slice of the persistence draft mutated via `save.update`. -/
structure SavedCamera where
  position : Vec3
  distanceMode : DistanceMode
  deriving DecidableEq, Repr

/-- `JS Map.set` on an insertion-ordered association list: an existing key
is updated in place, a new key is appended. -/
def setPointer (ps : List PointerRec) (pr : PointerRec) : List PointerRec :=
  match ps with
  | [] => [pr]
  | q :: rest => if q.id = pr.id then pr :: rest else q :: setPointer rest pr

/-- `JS Map.delete` on the association list. -/
def delPointer (ps : List PointerRec) (pid : ℕ) : List PointerRec :=
  ps.filter (fun p => p.id ≠ pid)

/-- `JS Map.get` on the association list. -/
def findPointer (ps : List PointerRec) (pid : ℕ) : Option PointerRec :=
  ps.find? (fun p => p.id = pid)

/-- The mutable fields of the `CameraSystem` class, plus the persistence
draft and the emitted-event log as observables. -/
structure CameraState where
  enabled : Bool
  target : Vec3
  spherical : Spherical
  sphericalDelta : Spherical
  distanceMode : DistanceMode
  isDragging : Bool
  activePointerId : Option ℕ
  lastPointer : Vec2
  pointers : List PointerRec
  lastPinchDist : ℚ
  lastTwoFingerCenter : Vec2
  radiusOverride : Option ℚ
  farLimit : ℚ
  idleMs : ℚ
  camPos : Vec3
  camForward : Vec3
  saved : SavedCamera
  events : List BusEvent
  deriving DecidableEq, Repr

namespace CameraSystem

/-- `config.camera.distanceModes` (AT: 10, NEAR: 50, FAR: 300). -/
def distanceModes : DistanceMode → ℚ
  | .AT => 10
  | .NEAR => 50
  | .FAR => 300

/-- `config.camera.autoRotateDelayMs` (12000). -/
def autoRotateDelayMs : ℚ := 12000

/-- `autoRotateSpeed = 0.13` rad/sec. -/
def autoRotateSpeed : ℚ := 13 / 100

/-- `mouseRotateSpeed = 0.0010`. -/
def mouseRotateSpeed : ℚ := 1 / 1000

/-- `touchRotateSpeed = 0.00031`. -/
def touchRotateSpeed : ℚ := 31 / 100000

/-- `damping = 0.031`. -/
def damping : ℚ := 31 / 1000

/-- `panSpeed = 0.0031` world units per pixel baseline. -/
def panSpeed : ℚ := 31 / 10000

/-- `pinchZoomSpeed = 0.079` radius per pinch pixel. -/
def pinchZoomSpeed : ℚ := 79 / 1000

/-- `pinchActiveThreshold = 0.25` px. -/
def pinchActiveThreshold : ℚ := 1 / 4

/-- `pinchPanDamping = 0.25`. -/
def pinchPanDamping : ℚ := 1 / 4

/-- The `EPS = 1e-4` pole clamp constant in `update`. -/
def EPS : ℚ := 1 / 10000

/-- Exact rational value of the IEEE-754 double `Math.PI`. -/
def mathPI : ℚ := 884279719003555 / 281474976710656

/-- `clampRadius(r)`: clamp to `[config AT canonical, farLimit]`. -/
def clampRadius (st : CameraState) (r : ℚ) : ℚ :=
  clampQ r (distanceModes .AT) st.farLimit

/-- The argmin loop of `updateDistanceModeFromRadius`: `bestD` starts at
`Infinity` (modelled by `none`), each mode replaces the best on a strictly
smaller absolute difference. -/
def bestStep (radius : ℚ) (acc : DistanceMode × Option ℚ) (m : DistanceMode) :
    DistanceMode × Option ℚ :=
  let d := |distanceModes m - radius|
  match acc.2 with
  | none => (m, some d)
  | some bd => if d < bd then (m, some d) else acc

/-- The mode selected by `updateDistanceModeFromRadius` for a given radius. -/
def bestMode (radius : ℚ) : DistanceMode :=
  (([DistanceMode.AT, DistanceMode.NEAR, DistanceMode.FAR]).foldl
    (bestStep radius) (DistanceMode.AT, none)).1

/-- `updateDistanceModeFromRadius(radius)`: set the mode label to the
nearest canonical mode, write it to the persistence draft and emit a
`camera:distanceMode` event. -/
def updateDistanceModeFromRadius (st : CameraState) (radius : ℚ) : CameraState :=
  let best := bestMode radius
  { st with
    distanceMode := best
    saved := { st.saved with distanceMode := best }
    events := st.events ++ [BusEvent.modeChanged best] }

/-- `cycleDistance(next?)`: jump to `next` when given, else advance
`modes[(indexOf(mode) + 1) % 3]` over `["AT", "NEAR", "FAR"]`; clear the
radius override, reset idle time, persist and emit the new mode. -/
def cycleDistance (next : Option DistanceMode) (st : CameraState) : CameraState :=
  let m : DistanceMode :=
    match next with
    | some n => n
    | none =>
      match st.distanceMode with
      | .AT => .NEAR
      | .NEAR => .FAR
      | .FAR => .AT
  { st with
    distanceMode := m
    radiusOverride := none
    idleMs := 0
    saved := { st.saved with distanceMode := m }
    events := st.events ++ [BusEvent.modeChanged m] }

/-- `setFarLimit(newFar)`: the new limit is `max(newFar, NEAR canonical)`;
if the current `spherical.radius` exceeds it, pull in by overriding the
radius to the limit, forcing mode FAR, persisting and emitting once. -/
def setFarLimit (newFar : ℚ) (st : CameraState) : CameraState :=
  let fl := max newFar (distanceModes .NEAR)
  let st1 := { st with farLimit := fl }
  if st1.spherical.radius > fl then
    { st1 with
      radiusOverride := some fl
      distanceMode := .FAR
      saved := { st1.saved with distanceMode := .FAR }
      events := st1.events ++ [BusEvent.modeChanged .FAR] }
  else st1

/-- `update(dt)`: apply and damp rotation deltas, clamp the polar angle to
`[EPS, PI - EPS]`, accumulate idle time and auto-rotate when idle past the
delay, resolve the radius (override if present, else the canonical radius
of the mode) clamped via `clampRadius`, recompute the camera pose and
write the persistence draft. -/
def update (T : Trig) (dt : ℚ) (st : CameraState) : CameraState :=
  if st.enabled then
    let theta1 := st.spherical.theta + st.sphericalDelta.theta
    let phi1 := clampQ (st.spherical.phi + st.sphericalDelta.phi) EPS (mathPI - EPS)
    let dTheta := st.sphericalDelta.theta * (1 - damping)
    let dPhi := st.sphericalDelta.phi * (1 - damping)
    let hasPointers := st.pointers.length > 0
    let idle1 := if ¬st.isDragging ∧ ¬hasPointers then st.idleMs + dt * 1000 else st.idleMs
    let theta2 :=
      if ¬st.isDragging ∧ ¬hasPointers ∧ idle1 > autoRotateDelayMs then
        theta1 + autoRotateSpeed * dt
      else theta1
    let baseRadius := distanceModes st.distanceMode
    let desiredRadius := st.radiusOverride.getD baseRadius
    let radius1 := clampRadius st desiredRadius
    let sph := Spherical.mk radius1 phi1 theta2
    let newPos := Vec3.add (Vec3.setFromSpherical T sph) st.target
    { st with
      spherical := sph
      sphericalDelta := { st.sphericalDelta with theta := dTheta, phi := dPhi }
      idleMs := idle1
      camPos := newPos
      camForward := Vec3.normalizeWith T (Vec3.sub st.target newPos)
      saved := { position := newPos, distanceMode := st.distanceMode } }
  else st

/-- `applyPan(pixelDelta)`: move the orbit target in the screen plane of the
camera (right/up frame derived from its world direction), scaled
by `panSpeed * radius / NEAR`, and emit a `camera:pan` event. -/
def applyPan (T : Trig) (st : CameraState) (pixelDelta : Vec2) : CameraState :=
  if Vec2.lengthSq pixelDelta = 0 then st
  else
    let upWorld : Vec3 := ⟨0, 1, 0⟩
    let forward := st.camForward
    let right := Vec3.normalizeWith T (Vec3.cross forward upWorld)
    let camUp := Vec3.normalizeWith T (Vec3.cross right forward)
    let nearR := distanceModes .NEAR
    let scale := panSpeed * (st.spherical.radius / nearR)
    let newTarget :=
      Vec3.add (Vec3.add st.target (Vec3.smul (-pixelDelta.x * scale) right))
        (Vec3.smul (pixelDelta.y * scale) camUp)
    { st with
      target := newTarget
      events := st.events ++ [BusEvent.panChanged newTarget.x newTarget.y newTarget.z] }

/-- `onPointerDown(e)`: record the pointer (before any filtering), start a
mouse drag only for a primary left-button mouse event (a non-primary or
non-left mouse down returns before the idle reset), reset idle time, and
when the tracked set reaches exactly two pointers initialize the pinch
reference distance, the pan midpoint, and seed the radius override. -/
def onPointerDown (T : Trig) (st : CameraState) (e : PointerEv) : CameraState :=
  if st.enabled then
    let pr : PointerRec :=
      ⟨e.pointerId, ⟨e.clientX, e.clientY⟩, ⟨e.clientX, e.clientY⟩, e.ptype⟩
    let ps := setPointer st.pointers pr
    let st1 := { st with pointers := ps }
    if e.ptype = .mouse ∧ (e.isPrimary = false ∨ e.button ≠ 0) then st1
    else
      let st2 :=
        if e.ptype = .mouse then
          { st1 with
            isDragging := true
            activePointerId := some e.pointerId
            lastPointer := ⟨e.clientX, e.clientY⟩ }
        else st1
      let st3 := { st2 with idleMs := 0 }
      match ps with
      | [a, b] =>
        { st3 with
          lastPinchDist := Vec2.distanceTo T a.pos b.pos
          lastTwoFingerCenter := Vec2.smul (1 / 2) (Vec2.add a.pos b.pos)
          radiusOverride := some (st3.radiusOverride.getD st3.spherical.radius) }
      | _ => st3
  else st

/-- `onPointerMove(e)`: update the pointer record; a dragging primary mouse
pointer accumulates rotation deltas; a single touch accumulates rotation
deltas; two touches pan by the midpoint motion (damped to 25% when the
pinch distance delta exceeds the activity threshold) and update the
clamped radius override by the incremental pinch distance delta. -/
def onPointerMove (T : Trig) (st : CameraState) (e : PointerEv) : CameraState :=
  if st.enabled then
    match findPointer st.pointers e.pointerId with
    | none => st
    | some pr0 =>
      let newPos : Vec2 := ⟨e.clientX, e.clientY⟩
      let pr := { pr0 with prev := pr0.pos, pos := newPos }
      let ps := setPointer st.pointers pr
      let st1 := { st with pointers := ps }
      if e.ptype = .mouse ∧ st1.isDragging ∧ st1.activePointerId = some e.pointerId then
        let dx := pr.pos.x - st1.lastPointer.x
        let dy := pr.pos.y - st1.lastPointer.y
        { st1 with
          lastPointer := pr.pos
          sphericalDelta := { st1.sphericalDelta with
            theta := st1.sphericalDelta.theta - dx * mouseRotateSpeed
            phi := st1.sphericalDelta.phi - dy * mouseRotateSpeed }
          idleMs := 0 }
      else if e.ptype ≠ .touch then st1
      else
        match ps with
        | [_] =>
          let dx := pr.pos.x - pr.prev.x
          let dy := pr.pos.y - pr.prev.y
          { st1 with
            sphericalDelta := { st1.sphericalDelta with
              theta := st1.sphericalDelta.theta - dx * touchRotateSpeed
              phi := st1.sphericalDelta.phi - dy * touchRotateSpeed }
            idleMs := 0 }
        | [a, b] =>
          let center := Vec2.smul (1 / 2) (Vec2.add a.pos b.pos)
          let dCenter := Vec2.sub center st1.lastTwoFingerCenter
          let st2 := { st1 with lastTwoFingerCenter := center }
          let dist := Vec2.distanceTo T a.pos b.pos
          let dd := dist - st2.lastPinchDist
          let st3 := { st2 with lastPinchDist := dist }
          let panScale := if |dd| > pinchActiveThreshold then pinchPanDamping else 1
          let st4 := applyPan T st3 (Vec2.smul panScale dCenter)
          let r0 := st4.radiusOverride.getD st4.spherical.radius
          { st4 with
            radiusOverride := some (clampRadius st4 (r0 - dd * pinchZoomSpeed))
            idleMs := 0 }
        | _ => st1
  else st

/-- `onPointerUp(e)`: drop the record, end a mouse drag owned by this
pointer, and when the tracked set becomes empty while a radius override is
active, snap the mode label to the nearest canonical mode (keeping the
override). -/
def onPointerUp (st : CameraState) (e : PointerEv) : CameraState :=
  let ps := delPointer st.pointers e.pointerId
  let st1 := { st with pointers := ps }
  let st2 :=
    if st1.activePointerId = some e.pointerId then
      { st1 with isDragging := false, activePointerId := none }
    else st1
  match ps, st2.radiusOverride with
  | [], some r => updateDistanceModeFromRadius st2 r
  | _, _ => st2

/-- `onPointerCancel(e)`: same state effect as `onPointerUp` without the
capture release. -/
def onPointerCancel (st : CameraState) (e : PointerEv) : CameraState :=
  let ps := delPointer st.pointers e.pointerId
  let st1 := { st with pointers := ps }
  let st2 :=
    if st1.activePointerId = some e.pointerId then
      { st1 with isDragging := false, activePointerId := none }
    else st1
  match ps, st2.radiusOverride with
  | [], some r => updateDistanceModeFromRadius st2 r
  | _, _ => st2

/-- `onWindowBlur()`: clear the drag flags and the whole pointer map; if a
radius override is active, snap the mode label from it. -/
def onWindowBlur (st : CameraState) : CameraState :=
  let st1 := { st with isDragging := false, activePointerId := none, pointers := [] }
  match st1.radiusOverride with
  | some r => updateDistanceModeFromRadius st1 r
  | none => st1

/-- `onContextMenu(e)`: prevent the default menu and clear the drag flags
(the pointer map is left untouched). -/
def onContextMenu (st : CameraState) : CameraState :=
  { st with isDragging := false, activePointerId := none }

/-- Modelled from the spec wording (for comparison with the source loop in
`updateDistanceModeFromRadius`): the mode whose canonical radius
(AT = 10, NEAR = 50, FAR = 300) has the smallest absolute difference from
the given radius, ties won by the first enumerated mode. -/
def specNearestMode (r : ℚ) : DistanceMode :=
  if |10 - r| ≤ |50 - r| ∧ |10 - r| ≤ |300 - r| then .AT
  else if |50 - r| ≤ |300 - r| then .NEAR
  else .FAR

end CameraSystem

/-- Square-root oracle used by the concrete evaluations below.  It agrees
with the real square root at every input actually reached by those traces
(all of them perfect squares); all other inputs are irrelevant to every
statement that uses it. -/
def sqrtAt (q : ℚ) : ℚ :=
  if q = 1 then 1
  else if q = 10000 then 100
  else if q = 40000 then 200
  else 0

/-- Concrete numeric bundle for evaluations: the `sin`/`cos` values are
never inspected by any statement below, `sqrt` is `sqrtAt`. -/
def trig0 : Trig where
  sin := fun _ => 0
  cos := fun _ => 0
  sqrt := sqrtAt

/-- A plain controller state: enabled, mode NEAR at its canonical radius
50, no pointers, no override, far limit at the configured FAR value. -/
def baseState : CameraState where
  enabled := true
  target := ⟨0, 0, 0⟩
  spherical := ⟨50, 157 / 100, 0⟩
  sphericalDelta := ⟨0, 0, 0⟩
  distanceMode := .NEAR
  isDragging := false
  activePointerId := none
  lastPointer := ⟨0, 0⟩
  pointers := []
  lastPinchDist := 0
  lastTwoFingerCenter := ⟨0, 0⟩
  radiusOverride := none
  farLimit := 300
  idleMs := 0
  camPos := ⟨0, 0, 50⟩
  camForward := ⟨0, 0, -1⟩
  saved := ⟨⟨0, 0, 50⟩, .NEAR⟩
  events := []

/-- Two-touch pinch state: fingers at (0,0) and (3400,0), pinch reference
distance 3400, override seeded at the current radius 50. -/
def stC2 : CameraState :=
  { baseState with
    pointers := [⟨1, ⟨0, 0⟩, ⟨0, 0⟩, .touch⟩, ⟨2, ⟨3400, 0⟩, ⟨3400, 0⟩, .touch⟩]
    lastPinchDist := 3400
    lastTwoFingerCenter := ⟨1700, 0⟩
    radiusOverride := some 50 }

/-- Move of finger 2 to (200,0): a pinch-in of 3200 px. -/
def evC2 : PointerEv := ⟨2, 200, 0, .touch, true, 0⟩

/-- One remaining touch pointer with an active override of 53.95. -/
def stC3 : CameraState :=
  { baseState with
    pointers := [⟨7, ⟨10, 10⟩, ⟨10, 10⟩, .touch⟩]
    radiusOverride := some (5395 / 100) }

/-- Release of that last touch pointer. -/
def evC3 : PointerEv := ⟨7, 10, 10, .touch, true, 0⟩

/-- State whose current spherical radius is 30 (between AT and NEAR). -/
def stC4 : CameraState := { baseState with spherical := ⟨30, 157 / 100, 0⟩ }

/-- Two-touch pinch state: fingers at (0,0) and (200,0), pinch reference
distance 200, override seeded at the current radius 50. -/
def stC6 : CameraState :=
  { baseState with
    pointers := [⟨1, ⟨0, 0⟩, ⟨0, 0⟩, .touch⟩, ⟨2, ⟨200, 0⟩, ⟨200, 0⟩, .touch⟩]
    lastPinchDist := 200
    lastTwoFingerCenter := ⟨100, 0⟩
    radiusOverride := some 50 }

/-- Move of finger 2 to (100,0): pinch distance delta of -100 px. -/
def evC6a : PointerEv := ⟨2, 100, 0, .touch, true, 0⟩

/-- Move of finger 2 back to (200,0): pinch distance delta of +100 px. -/
def evC6b : PointerEv := ⟨2, 200, 0, .touch, true, 0⟩

/-- Two-touch state: fingers at (0,0) and (84,0), pinch reference distance
99.75, midpoint reference (42,0), override seeded at radius 50. -/
def stC7 : CameraState :=
  { baseState with
    pointers := [⟨1, ⟨0, 0⟩, ⟨0, 0⟩, .touch⟩, ⟨2, ⟨84, 0⟩, ⟨84, 0⟩, .touch⟩]
    lastPinchDist := 399 / 4
    lastTwoFingerCenter := ⟨42, 0⟩
    radiusOverride := some 50 }

/-- Move of finger 2 to (100,0): the new pinch distance is 100, so the
pinch distance delta is exactly 0.25 px = `pinchActiveThreshold`, and the
midpoint moves by (8,0). -/
def evC7 : PointerEv := ⟨2, 100, 0, .touch, true, 0⟩

/-- Idle state with accumulated idle time 777 ms. -/
def stC8 : CameraState := { baseState with idleMs := 777 }

/-- A right-button (`button = 2`) primary mouse pointer-down. -/
def evC8 : PointerEv := ⟨3, 5, 5, .mouse, true, 2⟩

/-- State with one tracked touch pointer. -/
def stC9 : CameraState :=
  { baseState with pointers := [⟨4, ⟨1, 2⟩, ⟨1, 2⟩, .touch⟩] }

/-- The controller with its `enabled` flag cleared. -/
def stC10 : CameraState := { baseState with enabled := false, idleMs := 321 }

/-- State in mode FAR at its canonical radius 300. -/
def stC4w : CameraState :=
  { baseState with
    spherical := ⟨300, 157 / 100, 0⟩
    distanceMode := .FAR
    saved := ⟨⟨0, 0, 50⟩, .FAR⟩ }

open CameraSystem

lemma clampQ_le_bounds (v lo hi : ℚ) (h : lo ≤ hi) :
    lo ≤ clampQ v lo hi ∧ clampQ v lo hi ≤ hi := by
  unfold clampQ
  exact ⟨le_max_left _ _, max_le h (min_le_left _ _)⟩

lemma update_phi (T : Trig) (dt : ℚ) (st : CameraState) (h : st.enabled = true) :
    (update T dt st).spherical.phi
      = clampQ (st.spherical.phi + st.sphericalDelta.phi) EPS (mathPI - EPS) := by
  simp [update, h]

lemma update_radius (T : Trig) (dt : ℚ) (st : CameraState) (h : st.enabled = true) :
    (update T dt st).spherical.radius
      = clampQ (st.radiusOverride.getD (distanceModes st.distanceMode))
          (distanceModes .AT) st.farLimit := by
  simp [update, h, clampRadius]

/-- Claim C10: with the `enabled` flag false, `update(dt)` is a complete
no-op on the whole controller state (azimuth, polar, radius, pending
deltas, idle time, distance mode, camera pose, persistence draft). -/
theorem update_disabled_is_noop (T : Trig) (dt : ℚ) (st : CameraState)
    (h : st.enabled = false) : update T dt st = st := by
  simp [update, h]

/-- Witness for C10 at a concrete disabled state. -/
theorem update_disabled_is_noop_witness :
    update trig0 1 stC10 = stC10 := update_disabled_is_noop trig0 1 stC10 rfl

/-- Claim C1: after `update(dt)` with the controller enabled, the polar
angle lies in `[EPS, PI - EPS]` (EPS = 1e-4), hence strictly between 0 and
PI, for every prior accumulation of rotation deltas. -/
theorem polar_angle_clamped_each_frame (T : Trig) (dt : ℚ) (st : CameraState)
    (h : st.enabled = true) :
    EPS ≤ (update T dt st).spherical.phi ∧
    (update T dt st).spherical.phi ≤ mathPI - EPS ∧
    0 < (update T dt st).spherical.phi ∧
    (update T dt st).spherical.phi < mathPI := by
  have hb := clampQ_le_bounds (st.spherical.phi + st.sphericalDelta.phi) EPS
    (mathPI - EPS) (by norm_num [EPS, mathPI])
  rw [update_phi T dt st h]
  refine ⟨hb.1, hb.2, lt_of_lt_of_le (by norm_num [EPS]) hb.1,
    lt_of_le_of_lt hb.2 (by norm_num [EPS, mathPI])⟩

/-- Witness for C1 at a concrete enabled state. -/
theorem polar_angle_clamped_each_frame_witness :
    0 < (update trig0 1 baseState).spherical.phi ∧
    (update trig0 1 baseState).spherical.phi < mathPI :=
  ⟨(polar_angle_clamped_each_frame trig0 1 baseState rfl).2.2.1,
   (polar_angle_clamped_each_frame trig0 1 baseState rfl).2.2.2⟩

/-- Claim C9 (amended): `onWindowBlur` clears the pointer map and the drag
flags; `onContextMenu` clears the drag flags but leaves the tracked
pointer records untouched. -/
theorem blur_and_context_menu_reset (st : CameraState) :
    ((onWindowBlur st).pointers = [] ∧ (onWindowBlur st).isDragging = false ∧
      (onWindowBlur st).activePointerId = none) ∧
    ((onContextMenu st).isDragging = false ∧ (onContextMenu st).activePointerId = none ∧
      (onContextMenu st).pointers = st.pointers) := by
  unfold onWindowBlur onContextMenu updateDistanceModeFromRadius
  cases st.radiusOverride <;> simp

/-- Counterexample to C9 as stated: after `onContextMenu` the tracked
pointer set is not empty — the handler clears only the drag flags. -/
theorem context_menu_keeps_pointer_records :
    (onContextMenu stC9).pointers = [⟨4, ⟨1, 2⟩, ⟨1, 2⟩, PointerType.touch⟩] ∧
    (onContextMenu stC9).pointers ≠ [] := by decide

/-- Claim C5 (amended): `cycleDistance` with no argument advances through
AT → NEAR → FAR → AT (a 3-cycle, so three cycles round-trip), with an
argument jumps to it; in every case it clears the override, zeroes idle
time, writes the new mode to the persistence draft and emits it. -/
theorem cycleDistance_behavior (st : CameraState) (next : Option DistanceMode) :
    (cycleDistance next st).radiusOverride = none ∧
    (cycleDistance next st).idleMs = 0 ∧
    (cycleDistance next st).saved.distanceMode = (cycleDistance next st).distanceMode ∧
    (cycleDistance next st).events
      = st.events ++ [BusEvent.modeChanged (cycleDistance next st).distanceMode] ∧
    (∀ m, next = some m → (cycleDistance next st).distanceMode = m) ∧
    (next = none →
      (st.distanceMode = .AT → (cycleDistance next st).distanceMode = .NEAR) ∧
      (st.distanceMode = .NEAR → (cycleDistance next st).distanceMode = .FAR) ∧
      (st.distanceMode = .FAR → (cycleDistance next st).distanceMode = .AT)) ∧
    (cycleDistance none (cycleDistance none (cycleDistance none st))).distanceMode
      = st.distanceMode := by
  cases next <;> cases hm : st.distanceMode <;> simp [cycleDistance, hm]

/-- Counterexample to C5 as stated: from mode NEAR a no-argument cycle goes
to FAR, not to AT as the claimed NEAR → AT → FAR order requires. -/
theorem cycle_from_near_goes_far :
    baseState.distanceMode = DistanceMode.NEAR ∧
    (cycleDistance none baseState).distanceMode = DistanceMode.FAR ∧
    DistanceMode.FAR ≠ DistanceMode.AT := by decide

/-- Witness for C5 (amended) at a concrete state. -/
theorem cycleDistance_behavior_witness :
    (cycleDistance none (cycleDistance none (cycleDistance none baseState))).distanceMode
      = baseState.distanceMode ∧
    (cycleDistance none baseState).radiusOverride = none ∧
    (cycleDistance (some .AT) baseState).distanceMode = DistanceMode.AT :=
  ⟨(cycleDistance_behavior baseState none).2.2.2.2.2.2,
   (cycleDistance_behavior baseState none).1,
   (cycleDistance_behavior baseState (some .AT)).2.2.2.2.1 .AT rfl⟩

lemma setFarLimit_pos (L : ℚ) (st : CameraState)
    (hgt : st.spherical.radius > max L 50) :
    setFarLimit L st =
      { st with
        farLimit := max L 50
        radiusOverride := some (max L 50)
        distanceMode := .FAR
        saved := { st.saved with distanceMode := .FAR }
        events := st.events ++ [BusEvent.modeChanged .FAR] } := by
  simp only [setFarLimit, distanceModes]
  split
  · rfl
  · next hc => exact absurd hgt hc

lemma setFarLimit_neg (L : ℚ) (st : CameraState)
    (hle : st.spherical.radius ≤ max L 50) :
    setFarLimit L st = { st with farLimit := max L 50 } := by
  simp only [setFarLimit, distanceModes]
  split
  · next hc => exact absurd hc (not_lt.mpr hle)
  · rfl

lemma setFarLimit_farLimit (L : ℚ) (st : CameraState) :
    (setFarLimit L st).farLimit = max L 50 := by
  rcases le_or_lt st.spherical.radius (max L 50) with h | h
  · rw [setFarLimit_neg L st h]
  · rw [setFarLimit_pos L st h]

/-- Claim C4 (amended): `setFarLimit(L)` sets the limit to
`max(L, NEAR canonical) = max L 50`.  When the current spherical radius
exceeds that limit, the override becomes exactly the limit, the mode
becomes FAR, exactly one mode-change notification fires, and the next
frame resolves the radius to exactly the limit.  Otherwise mode, override
and notifications are unchanged, and the resolved radius is unchanged
provided the desired radius (override if present, else the canonical
radius) does not exceed the old or the new limit. -/
theorem setFarLimit_behavior (T : Trig) (dt : ℚ) (st : CameraState) (L : ℚ) :
    (setFarLimit L st).farLimit = max L 50 ∧
    (st.spherical.radius > max L 50 →
      (setFarLimit L st).radiusOverride = some (max L 50) ∧
      (setFarLimit L st).distanceMode = .FAR ∧
      (setFarLimit L st).events = st.events ++ [BusEvent.modeChanged .FAR] ∧
      (setFarLimit L st).saved.distanceMode = .FAR ∧
      (st.enabled = true → (update T dt (setFarLimit L st)).spherical.radius = max L 50)) ∧
    (st.spherical.radius ≤ max L 50 →
      (setFarLimit L st).distanceMode = st.distanceMode ∧
      (setFarLimit L st).radiusOverride = st.radiusOverride ∧
      (setFarLimit L st).events = st.events ∧
      (st.enabled = true →
        st.radiusOverride.getD (distanceModes st.distanceMode) ≤ max L 50 →
        st.radiusOverride.getD (distanceModes st.distanceMode) ≤ st.farLimit →
        (update T dt (setFarLimit L st)).spherical.radius
          = (update T dt st).spherical.radius)) := by
  have h50 : (10 : ℚ) ≤ max L 50 := le_trans (by norm_num) (le_max_right L 50)
  refine ⟨setFarLimit_farLimit L st, fun hgt => ?_, fun hle => ?_⟩
  · have hb := setFarLimit_pos L st hgt
    have hen1 : st.enabled = true → (setFarLimit L st).enabled = true := by
      rw [hb]; exact fun h => h
    refine ⟨by rw [hb], by rw [hb], by rw [hb], by rw [hb], fun hen => ?_⟩
    rw [update_radius T dt _ (hen1 hen), hb]
    show clampQ (max L 50) 10 (max L 50) = max L 50
    unfold clampQ
    rw [min_self, max_eq_right h50]
  · have hb := setFarLimit_neg L st hle
    have hen1 : st.enabled = true → (setFarLimit L st).enabled = true := by
      rw [hb]; exact fun h => h
    refine ⟨by rw [hb], by rw [hb], by rw [hb], fun hen hd1 hd2 => ?_⟩
    rw [update_radius T dt _ (hen1 hen), update_radius T dt st hen, hb]
    show clampQ (st.radiusOverride.getD (distanceModes st.distanceMode)) 10 (max L 50)
      = clampQ (st.radiusOverride.getD (distanceModes st.distanceMode)) 10 st.farLimit
    unfold clampQ
    rw [min_eq_right hd1, min_eq_right hd2]

/-- Counterexample to C4 as stated: `setFarLimit(20)` with current radius
30 > 20 leaves the mode at NEAR, emits no notification, and the next frame
resolves the radius to 50 (the limit is floored at the NEAR canonical
radius 50, so no pull-in happens and the radius does not become 20). -/
theorem setFarLimit_below_near_floor :
    stC4.spherical.radius = 30 ∧
    (setFarLimit 20 stC4).farLimit = 50 ∧
    (setFarLimit 20 stC4).distanceMode = DistanceMode.NEAR ∧
    DistanceMode.NEAR ≠ DistanceMode.FAR ∧
    (setFarLimit 20 stC4).events = [] ∧
    (update trig0 1 (setFarLimit 20 stC4)).spherical.radius = 50 := by decide

/-- Witness for C4 (amended): lowering the limit to 120 with current
radius 300 pulls the radius in to exactly 120, forces FAR and emits one
notification. -/
theorem setFarLimit_behavior_witness :
    (setFarLimit 120 stC4w).radiusOverride = some 120 ∧
    (setFarLimit 120 stC4w).events = [BusEvent.modeChanged .FAR] ∧
    (update trig0 1 (setFarLimit 120 stC4w)).spherical.radius = 120 := by
  have h := (setFarLimit_behavior trig0 1 stC4w 120).2.1 (by norm_num [stC4w, baseState])
  refine ⟨h.1.trans (by norm_num), ?_, ?_⟩
  · rw [h.2.2.1]; rfl
  · rw [h.2.2.2.2 rfl]; norm_num

lemma update_idle_active (T : Trig) (dt : ℚ) (st : CameraState)
    (hen : st.enabled = true) (h : st.isDragging = true ∨ st.pointers ≠ []) :
    (update T dt st).idleMs = st.idleMs ∧
    (update T dt st).spherical.theta
      = st.spherical.theta + st.sphericalDelta.theta := by
  rcases h with h | h <;> constructor <;> simp [update, hen, h]

lemma update_idle_quiet (T : Trig) (dt : ℚ) (st : CameraState)
    (hen : st.enabled = true) (hd : st.isDragging = false) (hp : st.pointers = []) :
    (update T dt st).idleMs = st.idleMs + dt * 1000 ∧
    (st.idleMs + dt * 1000 > 12000 →
      (update T dt st).spherical.theta
        = st.spherical.theta + st.sphericalDelta.theta + (13 / 100) * dt) ∧
    (st.idleMs + dt * 1000 ≤ 12000 →
      (update T dt st).spherical.theta
        = st.spherical.theta + st.sphericalDelta.theta) := by
  refine ⟨?_, fun hgt => ?_, fun hle => ?_⟩
  · simp [update, hen, hd, hp]
  · simp [update, hen, hd, hp, autoRotateDelayMs, autoRotateSpeed, hgt]
  · simp [update, hen, hd, hp, autoRotateDelayMs, autoRotateSpeed, not_lt.mpr hle]

lemma pointerDown_resets_idle (T : Trig) (st : CameraState) (e : PointerEv)
    (hen : st.enabled = true)
    (hok : e.ptype ≠ .mouse ∨ (e.isPrimary = true ∧ e.button = 0)) :
    (onPointerDown T st e).idleMs = 0 := by
  have hcond : ¬(e.ptype = .mouse ∧ (e.isPrimary = false ∨ e.button ≠ 0)) := by
    rcases hok with h | ⟨h1, h2⟩
    · exact fun hc => h hc.1
    · rintro ⟨-, h3 | h3⟩
      · rw [h1] at h3; exact Bool.noConfusion h3
      · exact h3 h2
  unfold onPointerDown
  rw [if_pos hen, if_neg hcond]
  rcases hm : setPointer st.pointers
      ⟨e.pointerId, ⟨e.clientX, e.clientY⟩, ⟨e.clientX, e.clientY⟩, e.ptype⟩ with
    - | ⟨a, - | ⟨b, - | ⟨c, tl⟩⟩⟩ <;> split <;> simp

/-- Claim C8 (amended): the auto-rotate azimuth increment is applied on a
frame only when the accumulated idle time (after the accumulation of
the current frame) exceeds the 12000 ms delay, idle time accumulates only on
frames with no tracked pointer and the drag flag unset, and idle time is
reset to 0 by every handled pointer-down except a non-primary or
non-left-button mouse down; auto-rotate never applies while a pointer is
tracked or a drag is flagged. -/
theorem idle_autorotate_behavior (T : Trig) (dt : ℚ) (st : CameraState) (e : PointerEv) :
    (st.enabled = true → (st.isDragging = true ∨ st.pointers ≠ []) →
      (update T dt st).idleMs = st.idleMs ∧
      (update T dt st).spherical.theta
        = st.spherical.theta + st.sphericalDelta.theta) ∧
    (st.enabled = true → st.isDragging = false → st.pointers = [] →
      (update T dt st).idleMs = st.idleMs + dt * 1000 ∧
      (st.idleMs + dt * 1000 > 12000 →
        (update T dt st).spherical.theta
          = st.spherical.theta + st.sphericalDelta.theta + (13 / 100) * dt) ∧
      (st.idleMs + dt * 1000 ≤ 12000 →
        (update T dt st).spherical.theta
          = st.spherical.theta + st.sphericalDelta.theta)) ∧
    (st.enabled = true → (e.ptype ≠ .mouse ∨ (e.isPrimary = true ∧ e.button = 0)) →
      (onPointerDown T st e).idleMs = 0) :=
  ⟨update_idle_active T dt st, update_idle_quiet T dt st,
   pointerDown_resets_idle T st e⟩

/-- Counterexample to C8 as stated: a handled right-button mouse
pointer-down leaves the accumulated idle time at 777 ms instead of
resetting it to 0 (the early return in the mouse branch skips the
reset). -/
theorem secondary_mouse_down_keeps_idle :
    stC8.enabled = true ∧ evC8.button = 2 ∧
    (onPointerDown trig0 stC8 evC8).pointers ≠ [] ∧
    (onPointerDown trig0 stC8 evC8).idleMs = 777 ∧ (777 : ℚ) ≠ 0 := by decide

/-- Witness for C8 (amended) at concrete states: a quiet frame accumulates
idle time, and a touch pointer-down resets it. -/
theorem idle_autorotate_behavior_witness :
    (update trig0 1 stC8).idleMs = 777 + 1 * 1000 ∧
    (onPointerDown trig0 stC8 evC3).idleMs = 0 :=
  ⟨((idle_autorotate_behavior trig0 1 stC8 evC3).2.1 rfl rfl rfl).1,
   (idle_autorotate_behavior trig0 1 stC8 evC3).2.2 rfl (Or.inl (by decide))⟩

lemma bestMode_eq_specNearestMode (r : ℚ) : bestMode r = specNearestMode r := by
  have e1 : bestMode r = (bestStep r (bestStep r (.AT, some |10 - r|) .NEAR) .FAR).1 := rfl
  rw [e1]
  rcases lt_or_le |50 - r| |10 - r| with h1 | h1
  · have e2 : bestStep r (.AT, some |10 - r|) .NEAR = (.NEAR, some |50 - r|) := by
      unfold bestStep
      simp [distanceModes, h1]
    rw [e2]
    rcases lt_or_le |300 - r| |50 - r| with h2 | h2
    · have e3 : bestStep r (.NEAR, some |50 - r|) .FAR = (.FAR, some |300 - r|) := by
        unfold bestStep
        simp [distanceModes, h2]
      rw [e3]
      unfold specNearestMode
      rw [if_neg (fun hc => absurd h1 (not_lt.mpr hc.1)), if_neg (not_le.mpr h2)]
    · have e3 : bestStep r (.NEAR, some |50 - r|) .FAR = (.NEAR, some |50 - r|) := by
        unfold bestStep
        simp [distanceModes, not_lt.mpr h2]
      rw [e3]
      unfold specNearestMode
      rw [if_neg (fun hc => absurd h1 (not_lt.mpr hc.1)), if_pos h2]
  · have e2 : bestStep r (.AT, some |10 - r|) .NEAR = (.AT, some |10 - r|) := by
      unfold bestStep
      simp [distanceModes, not_lt.mpr h1]
    rw [e2]
    rcases lt_or_le |300 - r| |10 - r| with h3 | h3
    · have e3 : bestStep r (.AT, some |10 - r|) .FAR = (.FAR, some |300 - r|) := by
        unfold bestStep
        simp [distanceModes, h3]
      rw [e3]
      unfold specNearestMode
      rw [if_neg (fun hc => absurd h3 (not_lt.mpr hc.2)),
        if_neg (not_le.mpr (lt_of_lt_of_le h3 h1))]
    · have e3 : bestStep r (.AT, some |10 - r|) .FAR = (.AT, some |10 - r|) := by
        unfold bestStep
        simp [distanceModes, not_lt.mpr h3]
      rw [e3]
      unfold specNearestMode
      rw [if_pos ⟨h1, h3⟩]

/-- Claim C3: when the last tracked pointer is released while a radius
override is active, the mode label snaps to the mode whose canonical
radius is nearest the override (absolute difference, first enumerated mode
wins ties), a mode-change event is emitted, and the override radius itself
is preserved exactly. -/
theorem pinch_end_snaps_mode_keeps_radius (st : CameraState) (e : PointerEv)
    (p : PointerRec) (r : ℚ) (hps : st.pointers = [p]) (hid : p.id = e.pointerId)
    (hov : st.radiusOverride = some r) :
    (onPointerUp st e).distanceMode = specNearestMode r ∧
    (onPointerUp st e).radiusOverride = some r ∧
    (onPointerUp st e).saved.distanceMode = specNearestMode r ∧
    (onPointerUp st e).events = st.events ++ [BusEvent.modeChanged (specNearestMode r)] := by
  have hdel : delPointer st.pointers e.pointerId = [] := by
    rw [hps]
    simp [delPointer, hid]
  by_cases hap : st.activePointerId = some e.pointerId <;>
    simp [onPointerUp, hdel, hap, hov, updateDistanceModeFromRadius,
      bestMode_eq_specNearestMode]

/-- Witness for C3: mode NEAR with override 53.95; releasing the last
pointer snaps the label to NEAR (|53.95-50| = 3.95 beats the others) and
keeps the radius at exactly 53.95. -/
theorem pinch_end_snaps_mode_keeps_radius_witness :
    (onPointerUp stC3 evC3).distanceMode = DistanceMode.NEAR ∧
    (onPointerUp stC3 evC3).radiusOverride = some (5395 / 100) := by
  have h := pinch_end_snaps_mode_keeps_radius stC3 evC3
    ⟨7, ⟨10, 10⟩, ⟨10, 10⟩, .touch⟩ (5395 / 100) rfl rfl rfl
  have hn : specNearestMode (5395 / 100) = DistanceMode.NEAR := by
    unfold specNearestMode
    rw [abs_of_nonpos (show (10 : ℚ) - 5395 / 100 ≤ 0 by norm_num),
      abs_of_nonpos (show (50 : ℚ) - 5395 / 100 ≤ 0 by norm_num),
      abs_of_nonneg (show (0 : ℚ) ≤ 300 - 5395 / 100 by norm_num)]
    norm_num
  exact ⟨h.1.trans hn, h.2.1⟩

lemma applyPan_radiusOverride (T : Trig) (st : CameraState) (pd : Vec2) :
    (applyPan T st pd).radiusOverride = st.radiusOverride := by
  unfold applyPan
  split <;> rfl

lemma applyPan_spherical (T : Trig) (st : CameraState) (pd : Vec2) :
    (applyPan T st pd).spherical = st.spherical := by
  unfold applyPan
  split <;> rfl

lemma applyPan_farLimit (T : Trig) (st : CameraState) (pd : Vec2) :
    (applyPan T st pd).farLimit = st.farLimit := by
  unfold applyPan
  split <;> rfl

lemma applyPan_pointers (T : Trig) (st : CameraState) (pd : Vec2) :
    (applyPan T st pd).pointers = st.pointers := by
  unfold applyPan
  split <;> rfl

lemma applyPan_enabled (T : Trig) (st : CameraState) (pd : Vec2) :
    (applyPan T st pd).enabled = st.enabled := by
  unfold applyPan
  split <;> rfl

lemma applyPan_lastPinchDist (T : Trig) (st : CameraState) (pd : Vec2) :
    (applyPan T st pd).lastPinchDist = st.lastPinchDist := by
  unfold applyPan
  split <;> rfl

lemma applyPan_target_congr (T : Trig) (s1 s2 : CameraState) (pd : Vec2)
    (hf : s1.camForward = s2.camForward) (hs : s1.spherical = s2.spherical)
    (ht : s1.target = s2.target) :
    (applyPan T s1 pd).target = (applyPan T s2 pd).target := by
  unfold applyPan
  split <;> simp [hf, hs, ht]

lemma twoTouchMove (T : Trig) (st : CameraState) (a b : PointerRec) (e : PointerEv)
    (hen : st.enabled = true) (hps : st.pointers = [a, b]) (hne : ¬a.id = b.id)
    (hid : e.pointerId = b.id) (ht : e.ptype = .touch) :
    (onPointerMove T st e).radiusOverride
      = some (clampQ
          (st.radiusOverride.getD st.spherical.radius
            - (T.sqrt (Vec2.distSq a.pos ⟨e.clientX, e.clientY⟩) - st.lastPinchDist)
              * pinchZoomSpeed)
          10 st.farLimit) ∧
    (onPointerMove T st e).pointers
      = [a, { b with prev := b.pos, pos := ⟨e.clientX, e.clientY⟩ }] ∧
    (onPointerMove T st e).lastPinchDist
      = T.sqrt (Vec2.distSq a.pos ⟨e.clientX, e.clientY⟩) ∧
    (onPointerMove T st e).spherical = st.spherical ∧
    (onPointerMove T st e).farLimit = st.farLimit ∧
    (onPointerMove T st e).enabled = true := by
  have hfind : findPointer st.pointers e.pointerId = some b := by
    rw [hps, hid]
    simp [findPointer, List.find?, hne]
  have hset : setPointer st.pointers
      { b with prev := b.pos, pos := ⟨e.clientX, e.clientY⟩ } = [a,
        { b with prev := b.pos, pos := ⟨e.clientX, e.clientY⟩ }] := by
    rw [hps]
    simp [setPointer, hne]
  simp [onPointerMove, hen, hfind, hset, ht, applyPan_radiusOverride,
    applyPan_spherical, applyPan_farLimit, applyPan_pointers, applyPan_enabled,
    applyPan_lastPinchDist, clampRadius, distanceModes, Vec2.distanceTo]

lemma twoTouchMoveTarget (T : Trig) (st : CameraState) (a b : PointerRec) (e : PointerEv)
    (hen : st.enabled = true) (hps : st.pointers = [a, b]) (hne : ¬a.id = b.id)
    (hid : e.pointerId = b.id) (ht : e.ptype = .touch) :
    (onPointerMove T st e).target
      = (applyPan T st (Vec2.smul
          (if |T.sqrt (Vec2.distSq a.pos ⟨e.clientX, e.clientY⟩) - st.lastPinchDist|
              > pinchActiveThreshold then pinchPanDamping else 1)
          (Vec2.sub (Vec2.smul (1 / 2) (Vec2.add a.pos ⟨e.clientX, e.clientY⟩))
            st.lastTwoFingerCenter))).target := by
  have hfind : findPointer st.pointers e.pointerId = some b := by
    rw [hps, hid]
    simp [findPointer, List.find?, hne]
  have hset : setPointer st.pointers
      { b with prev := b.pos, pos := ⟨e.clientX, e.clientY⟩ } = [a,
        { b with prev := b.pos, pos := ⟨e.clientX, e.clientY⟩ }] := by
    rw [hps]
    simp [setPointer, hne]
  simp only [onPointerMove, hen, hfind, hset, ht, Vec2.distanceTo]
  simp
  exact applyPan_target_congr T _ st _ rfl rfl rfl

lemma Vec2.smul_one (v : Vec2) : Vec2.smul 1 v = v := by
  cases v
  simp [Vec2.smul]

/-- Claim C6: a pinch sample of distance delta -D followed by one of +D
(the pinch distance returns to its reference value) restores the radius
override exactly to its pre-pinch value, whenever neither intermediate
clamp saturates. -/
theorem pinch_inverse_law (T : Trig) (st : CameraState) (a b : PointerRec)
    (e1 e2 : PointerEv)
    (hen : st.enabled = true) (hps : st.pointers = [a, b]) (hne : ¬a.id = b.id)
    (h1id : e1.pointerId = b.id) (h1t : e1.ptype = .touch)
    (h2id : e2.pointerId = b.id) (h2t : e2.ptype = .touch)
    (hret : T.sqrt (Vec2.distSq a.pos ⟨e2.clientX, e2.clientY⟩) = st.lastPinchDist)
    (hr0lo : 10 ≤ st.radiusOverride.getD st.spherical.radius)
    (hr0hi : st.radiusOverride.getD st.spherical.radius ≤ st.farLimit)
    (hmlo : 10 ≤ st.radiusOverride.getD st.spherical.radius
        - (T.sqrt (Vec2.distSq a.pos ⟨e1.clientX, e1.clientY⟩) - st.lastPinchDist)
          * pinchZoomSpeed)
    (hmhi : st.radiusOverride.getD st.spherical.radius
        - (T.sqrt (Vec2.distSq a.pos ⟨e1.clientX, e1.clientY⟩) - st.lastPinchDist)
          * pinchZoomSpeed ≤ st.farLimit) :
    (onPointerMove T st e1).radiusOverride
      = some (st.radiusOverride.getD st.spherical.radius
          - (T.sqrt (Vec2.distSq a.pos ⟨e1.clientX, e1.clientY⟩) - st.lastPinchDist)
            * pinchZoomSpeed) ∧
    (onPointerMove T (onPointerMove T st e1) e2).radiusOverride
      = some (st.radiusOverride.getD st.spherical.radius) := by
  have h1 := twoTouchMove T st a b e1 hen hps hne h1id h1t
  have hclamp1 : clampQ (st.radiusOverride.getD st.spherical.radius
      - (T.sqrt (Vec2.distSq a.pos ⟨e1.clientX, e1.clientY⟩) - st.lastPinchDist)
        * pinchZoomSpeed) 10 st.farLimit
      = st.radiusOverride.getD st.spherical.radius
        - (T.sqrt (Vec2.distSq a.pos ⟨e1.clientX, e1.clientY⟩) - st.lastPinchDist)
          * pinchZoomSpeed := by
    unfold clampQ
    rw [min_eq_right hmhi, max_eq_right hmlo]
  have hov1 : (onPointerMove T st e1).radiusOverride
      = some (st.radiusOverride.getD st.spherical.radius
        - (T.sqrt (Vec2.distSq a.pos ⟨e1.clientX, e1.clientY⟩) - st.lastPinchDist)
          * pinchZoomSpeed) := by
    rw [h1.1, hclamp1]
  have h2 := twoTouchMove T (onPointerMove T st e1) a
    { b with prev := b.pos, pos := ⟨e1.clientX, e1.clientY⟩ } e2
    h1.2.2.2.2.2 h1.2.1 hne h2id h2t
  refine ⟨hov1, ?_⟩
  rw [h2.1, hov1, h1.2.2.1, h1.2.2.2.2.1, hret]
  simp only [Option.getD_some]
  have harg : st.radiusOverride.getD st.spherical.radius
      - (T.sqrt (Vec2.distSq a.pos ⟨e1.clientX, e1.clientY⟩) - st.lastPinchDist)
        * pinchZoomSpeed
      - (st.lastPinchDist - T.sqrt (Vec2.distSq a.pos ⟨e1.clientX, e1.clientY⟩))
        * pinchZoomSpeed
      = st.radiusOverride.getD st.spherical.radius := by ring
  rw [harg]
  unfold clampQ
  rw [min_eq_right hr0hi, max_eq_right hr0lo]

/-- Witness for C6: with `pinchZoomSpeed = 0.079` and starting radius 50,
pinch deltas [-100, +100] take the override 50 → 57.9 → 50 exactly. -/
theorem pinch_inverse_law_witness :
    (onPointerMove trig0 stC6 evC6a).radiusOverride = some (579 / 10) ∧
    (onPointerMove trig0 (onPointerMove trig0 stC6 evC6a) evC6b).radiusOverride
      = some 50 := by
  have h := pinch_inverse_law trig0 stC6 ⟨1, ⟨0, 0⟩, ⟨0, 0⟩, .touch⟩
    ⟨2, ⟨200, 0⟩, ⟨200, 0⟩, .touch⟩ evC6a evC6b rfl rfl (by decide) rfl rfl rfl rfl
    (by norm_num [trig0, sqrtAt, Vec2.distSq, stC6, baseState, evC6b])
    (by norm_num [stC6, baseState])
    (by norm_num [stC6, baseState])
    (by norm_num [trig0, sqrtAt, Vec2.distSq, stC6, baseState, evC6a, pinchZoomSpeed])
    (by norm_num [trig0, sqrtAt, Vec2.distSq, stC6, baseState, evC6a, pinchZoomSpeed])
  refine ⟨h.1.trans ?_, h.2.trans ?_⟩
  · norm_num [trig0, sqrtAt, Vec2.distSq, stC6, baseState, evC6a, pinchZoomSpeed]
  · norm_num [stC6, baseState]

/-- Claim C7 (amended): on a two-pointer touch move sample the pan delta
is applied at full scale when the absolute pinch distance delta is at most
`pinchActiveThreshold` (0.25 px), and scaled by `pinchPanDamping` (0.25)
when it is strictly greater. -/
theorem pinch_pan_damping_policy (T : Trig) (st : CameraState) (a b : PointerRec)
    (e : PointerEv) (hen : st.enabled = true) (hps : st.pointers = [a, b])
    (hne : ¬a.id = b.id) (hid : e.pointerId = b.id) (ht : e.ptype = .touch) :
    (|T.sqrt (Vec2.distSq a.pos ⟨e.clientX, e.clientY⟩) - st.lastPinchDist|
        ≤ pinchActiveThreshold →
      (onPointerMove T st e).target
        = (applyPan T st
            (Vec2.sub (Vec2.smul (1 / 2) (Vec2.add a.pos ⟨e.clientX, e.clientY⟩))
              st.lastTwoFingerCenter)).target) ∧
    (|T.sqrt (Vec2.distSq a.pos ⟨e.clientX, e.clientY⟩) - st.lastPinchDist|
        > pinchActiveThreshold →
      (onPointerMove T st e).target
        = (applyPan T st
            (Vec2.smul pinchPanDamping
              (Vec2.sub (Vec2.smul (1 / 2) (Vec2.add a.pos ⟨e.clientX, e.clientY⟩))
                st.lastTwoFingerCenter))).target) := by
  have h := twoTouchMoveTarget T st a b e hen hps hne hid ht
  constructor
  · intro hle
    rw [h, if_neg (not_lt.mpr hle), Vec2.smul_one]
  · intro hgt
    rw [h, if_pos hgt]

/-- Counterexample to C7 as stated: with a pinch distance delta of exactly
0.25 px (= `pinchActiveThreshold`) the pan is applied at full scale, while
the claim requires the damped scale whenever the delta is ≥ the
threshold. -/
theorem pan_full_scale_at_threshold :
    trig0.sqrt (Vec2.distSq (⟨0, 0⟩ : Vec2) ⟨100, 0⟩) - stC7.lastPinchDist
      = pinchActiveThreshold ∧
    (onPointerMove trig0 stC7 evC7).target = ⟨-(31 / 1250), 0, 0⟩ ∧
    (applyPan trig0 stC7 (Vec2.smul pinchPanDamping (Vec2.mk 8 0))).target
      = ⟨-(31 / 5000), 0, 0⟩ ∧
    ((⟨-(31 / 1250), 0, 0⟩ : Vec3) ≠ ⟨-(31 / 5000), 0, 0⟩) := by
  refine ⟨by norm_num [trig0, sqrtAt, Vec2.distSq, stC7, baseState,
      pinchActiveThreshold], ?_,
    by norm_num [applyPan, stC7, baseState, trig0, sqrtAt, pinchPanDamping,
      Vec2.smul, Vec2.lengthSq, Vec3.normalizeWith, Vec3.cross, Vec3.lengthSq,
      Vec3.smul, Vec3.add, panSpeed, distanceModes],
    by norm_num⟩
  have h := twoTouchMoveTarget trig0 stC7 ⟨1, ⟨0, 0⟩, ⟨0, 0⟩, .touch⟩
    ⟨2, ⟨84, 0⟩, ⟨84, 0⟩, .touch⟩ evC7 rfl rfl (by decide) rfl rfl
  have habs : |trig0.sqrt (Vec2.distSq
      (⟨1, ⟨0, 0⟩, ⟨0, 0⟩, PointerType.touch⟩ : PointerRec).pos
      ⟨evC7.clientX, evC7.clientY⟩) - stC7.lastPinchDist| = 1 / 4 := by
    norm_num [trig0, sqrtAt, Vec2.distSq, stC7, baseState, evC7]
  rw [h, habs, if_neg (by norm_num [pinchActiveThreshold]), Vec2.smul_one]
  norm_num [applyPan, stC7, baseState, evC7, trig0, sqrtAt, Vec2.add, Vec2.sub,
    Vec2.smul, Vec2.lengthSq, Vec3.normalizeWith, Vec3.cross, Vec3.lengthSq,
    Vec3.smul, Vec3.add, panSpeed, distanceModes]

/-- Witness for C7 (amended): a pinch delta of -100 px (beyond the
threshold) applies the pan damped to 25%. -/
theorem pinch_pan_damping_policy_witness :
    (onPointerMove trig0 stC6 evC6a).target
      = (applyPan trig0 stC6
          (Vec2.smul pinchPanDamping
            (Vec2.sub (Vec2.smul (1 / 2) (Vec2.add
              (⟨1, ⟨0, 0⟩, ⟨0, 0⟩, PointerType.touch⟩ : PointerRec).pos
              ⟨evC6a.clientX, evC6a.clientY⟩))
              stC6.lastTwoFingerCenter))).target :=
  (pinch_pan_damping_policy trig0 stC6 ⟨1, ⟨0, 0⟩, ⟨0, 0⟩, .touch⟩
    ⟨2, ⟨200, 0⟩, ⟨200, 0⟩, .touch⟩ evC6a rfl rfl (by decide) rfl rfl).2
    (by norm_num [trig0, sqrtAt, Vec2.distSq, stC6, baseState, evC6a,
      pinchActiveThreshold])

/-- Claim C2 (amended): the resolved radius after `update` always lies in
`[AT canonical = 10, farLimit]` (whenever `10 ≤ farLimit`, which every
reachable far limit satisfies); the override lies in that interval
immediately after any two-touch pinch sample; a discrete cycle clears the
override; and a far-limit change that pulls the camera in sets the
override exactly to the new limit, inside the interval.  (A far-limit
change that does not trigger the pull-in can leave a stale override above
the new limit; only the per-frame clamp keeps the resolved radius in
range.) -/
theorem resolved_radius_invariant (T : Trig) (dt : ℚ) (st : CameraState)
    (a b : PointerRec) (e : PointerEv) (next : Option DistanceMode) (L : ℚ) :
    (st.enabled = true → 10 ≤ st.farLimit →
      10 ≤ (update T dt st).spherical.radius ∧
      (update T dt st).spherical.radius ≤ st.farLimit) ∧
    (st.enabled = true → st.pointers = [a, b] → ¬a.id = b.id → e.pointerId = b.id →
      e.ptype = .touch → 10 ≤ st.farLimit →
      ∃ v, (onPointerMove T st e).radiusOverride = some v ∧ 10 ≤ v ∧ v ≤ st.farLimit) ∧
    ((cycleDistance next st).radiusOverride = none) ∧
    (st.spherical.radius > max L 50 →
      (setFarLimit L st).radiusOverride = some (max L 50) ∧
      10 ≤ max L 50 ∧ (setFarLimit L st).farLimit = max L 50) := by
  refine ⟨fun hen h10 => ?_, fun hen hps hne hid ht h10 => ?_, ?_, fun hgt => ?_⟩
  · rw [update_radius T dt st hen]
    exact clampQ_le_bounds _ 10 st.farLimit h10
  · have h := twoTouchMove T st a b e hen hps hne hid ht
    exact ⟨_, h.1, clampQ_le_bounds _ 10 st.farLimit h10⟩
  · simp [cycleDistance]
  · rw [setFarLimit_pos L st hgt]
    exact ⟨rfl, le_trans (by norm_num) (le_max_right L 50), rfl⟩

/-- Counterexample to C2 as stated: after a pinch-in to the clamp ceiling
(override = 300) followed by `setFarLimit(100)` while the spherical radius
of the last frame (50) is below the new limit, the override stays 300 while
the far limit is 100 — the override escapes `[AT canonical, farLimit]`
immediately after a far-limit change. -/
theorem stale_override_exceeds_far_limit :
    (setFarLimit 100 (onPointerMove trig0 stC2 evC2)).radiusOverride = some 300 ∧
    (setFarLimit 100 (onPointerMove trig0 stC2 evC2)).farLimit = 100 ∧
    ¬((300 : ℚ) ≤ 100) := by
  have h := twoTouchMove trig0 stC2 ⟨1, ⟨0, 0⟩, ⟨0, 0⟩, .touch⟩
    ⟨2, ⟨3400, 0⟩, ⟨3400, 0⟩, .touch⟩ evC2 rfl rfl (by decide) rfl rfl
  have hrad : (onPointerMove trig0 stC2 evC2).spherical.radius ≤ max 100 50 := by
    rw [h.2.2.2.1]
    norm_num [stC2, baseState]
  have hov : (onPointerMove trig0 stC2 evC2).radiusOverride = some 300 := by
    rw [h.1]
    norm_num [trig0, sqrtAt, Vec2.distSq, stC2, baseState, evC2, pinchZoomSpeed,
      clampQ]
  refine ⟨?_, ?_, by norm_num⟩
  · rw [setFarLimit_neg 100 (onPointerMove trig0 stC2 evC2) hrad]
    exact hov
  · rw [setFarLimit_farLimit]
    norm_num

/-- Witness for C2 (amended) at concrete states: the resolved radius after
a frame stays in `[10, 300]`, cycling clears the override, and the far
limit pull-in sets the override to the new limit. -/
theorem resolved_radius_invariant_witness :
    (10 ≤ (update trig0 1 baseState).spherical.radius ∧
      (update trig0 1 baseState).spherical.radius ≤ baseState.farLimit) ∧
    (cycleDistance none baseState).radiusOverride = none ∧
    (setFarLimit 120 stC4w).radiusOverride = some (max 120 50) := by
  have h1 := (resolved_radius_invariant trig0 1 baseState
    ⟨1, ⟨0, 0⟩, ⟨0, 0⟩, .touch⟩ ⟨2, ⟨0, 0⟩, ⟨0, 0⟩, .touch⟩ evC2 none 120).1
    rfl (by norm_num [baseState])
  have h2 := (resolved_radius_invariant trig0 1 baseState
    ⟨1, ⟨0, 0⟩, ⟨0, 0⟩, .touch⟩ ⟨2, ⟨0, 0⟩, ⟨0, 0⟩, .touch⟩ evC2 none 120).2.2.1
  have h3 := (resolved_radius_invariant trig0 1 stC4w
    ⟨1, ⟨0, 0⟩, ⟨0, 0⟩, .touch⟩ ⟨2, ⟨0, 0⟩, ⟨0, 0⟩, .touch⟩ evC2 none 120).2.2.2
    (by norm_num [stC4w, baseState])
  exact ⟨h1, h2, h3.1⟩
